import Mathlib

/-!
Model of the Uniswap V2 SDK router module (`src/index.ts`): the `quote`
primitive and the three encoding operations `swapCallParameters`,
`addCallParameters`, `removeCallParameters`.

The SDK's `Fraction` type is an exact rational (big-integer numerator and
denominator); it is modelled by `ℚ`.  Its `quotient` accessor is big-integer
division of numerator by denominator, which truncates toward zero; it is
modelled by `fquot`.  `CurrencyAmount` is a `Fraction` with a currency tag.
Amount strings placed into `args` use `toString()` (decimal), while `toHex`
produces `0x` + base-16 digits.  The reconciliation branch of
`addCallParameters` compares amounts with JavaScript `Number(...)`, i.e. the
decimal string is converted to an IEEE-754 binary64 value first; that
conversion is modelled by `floatApprox` (round to nearest, ties to even
mantissa), exact for all magnitudes below the binary64 overflow threshold
and hence for every uint256-sized amount.

External collaborators (the address validator, the wall clock, and the
opaque `Trade` accessors) are passed in as explicit arguments, matching the
interface the source consumes.
-/

namespace V2Router

/-- Truncating integer extraction of a rational: the SDK `Fraction.quotient`,
big-integer division of numerator by denominator (truncation toward zero). -/
def fquot (q : ℚ) : ℤ :=
  q.num.tdiv q.den

/-- Base-16 digit string of a natural number, as produced by
`JSBI.toString(16)` / `Number.toString(16)` (lowercase, no padding). -/
def hexDigitsStr (n : ℕ) : String :=
  String.mk (Nat.toDigits 16 n)

/-- Base-16 string of an integer; negative values render as "-" + digits,
matching JavaScript `toString(16)`. -/
def hexOfInt (n : ℤ) : String :=
  if n < 0 then "-" ++ hexDigitsStr n.natAbs else hexDigitsStr n.natAbs

/-- Decimal string of an integer, as produced by `toString()`. -/
def decStr (n : ℤ) : String :=
  toString n

/-- `toHex` from the source: `0x` + the currency amount's truncated quotient
in base 16.  The argument is the amount's exact rational value. -/
def toHex (q : ℚ) : String :=
  "0x" ++ hexOfInt (fquot q)

/-- The `ZERO_HEX` constant from the source. -/
def ZERO_HEX : String := "0x0"

/-- The `quote` primitive exactly as the source writes it:
`amountA.multiply(reserveA).divide(reserveB)`. -/
def quote (amountA reserveA reserveB : ℚ) : ℚ :=
  amountA * reserveA / reserveB

/-- Binary length of a natural number, computed with explicit fuel so that
it reduces step by step; `1100` covers every value below `2 ^ 1100`, far
beyond the binary64 overflow threshold. -/
def bitLenFuel : ℕ → ℕ → ℕ
  | 0, _ => 0
  | fuel + 1, m => if m = 0 then 0 else bitLenFuel fuel (m / 2) + 1

/-- Binary length: `bitLen n = k` iff `2 ^ (k - 1) ≤ n < 2 ^ k` (0 for 0). -/
def bitLen (n : ℕ) : ℕ :=
  bitLenFuel 1100 n

/-- Nearest IEEE-754 binary64 value of a natural number (round to nearest,
ties to the even mantissa).  Integers below `2 ^ 53` are exact; above, the
low `k` bits are rounded away where `2 ^ k` is the binary64 spacing at that
magnitude.  This models JavaScript `Number(decimalIntegerString)` for all
magnitudes below the binary64 overflow threshold (far above uint256). -/
def floatApproxNat (n : ℕ) : ℕ :=
  if n < 2 ^ 53 then n
  else
    let k := bitLen n - 53
    let q := n / 2 ^ k
    let r := n % 2 ^ k
    let half := 2 ^ (k - 1)
    if r < half then q * 2 ^ k
    else if half < r then (q + 1) * 2 ^ k
    else if q % 2 = 0 then q * 2 ^ k else (q + 1) * 2 ^ k

/-- Nearest binary64 value of an integer (rounding is sign-symmetric). -/
def floatApprox (n : ℤ) : ℤ :=
  if n < 0 then -(floatApproxNat n.natAbs : ℤ) else (floatApproxNat n.natAbs : ℤ)

/-- The comparison `Number(a) <= Number(b)` performed by the source on
decimal amount strings: both sides are first rounded to binary64. -/
def numLe (a b : ℤ) : Bool :=
  floatApprox a ≤ floatApprox b

/-- The comparison `Number(a) < Number(b)` performed by the source on
decimal amount strings: both sides are first rounded to binary64. -/
def numLt (a b : ℤ) : Bool :=
  floatApprox a < floatApprox b

/-- Trade type tag. -/
inductive TradeType where
  | exactInput
  | exactOutput
deriving DecidableEq

/-- A currency: the model only needs its nativeness flag. -/
structure Currency where
  isNative : Bool
deriving DecidableEq

/-- A `CurrencyAmount`: a currency tag plus the exact rational value of the
underlying `Fraction`. -/
structure CAmount where
  isNative : Bool
  amt : ℚ
deriving DecidableEq

/-- A `Pair` snapshot: two ordered token addresses and two reserves as
exact rationals. -/
structure Pair where
  token0Address : String
  token1Address : String
  reserve0 : ℚ
  reserve1 : ℚ
deriving DecidableEq

/-- An opaque `Trade`: currency nativeness of both legs, trade type, the
slippage-adjusted amount accessors, and the route's token address path. -/
structure Trade where
  inputIsNative : Bool
  outputIsNative : Bool
  tradeType : TradeType
  maximumAmountIn : ℚ → ℚ
  minimumAmountOut : ℚ → ℚ
  path : List String

/-- The `ttl`-or-`deadline` alternative of `TradeOptions` /
`TradeOptionsDeadline`. -/
inductive Expiry where
  | ttl (t : ℤ)
  | deadline (d : ℤ)
deriving DecidableEq

/-- Trade options. -/
structure TradeOptions where
  allowedSlippage : ℚ
  expiry : Expiry
  recipient : String
  feeOnTransfer : Bool
deriving DecidableEq

/-- One entry of the `args` array: a plain string or an address list. -/
inductive Arg where
  | str (s : String)
  | addrList (l : List String)
deriving DecidableEq

/-- The returned `SwapParameters` triple. -/
structure SwapParameters where
  methodName : String
  args : List Arg
  value : String
deriving DecidableEq

deriving instance DecidableEq for Except

/-- The `TTL` invariant test: a relative ttl is present and not positive. -/
def ttlInvalid : Expiry → Bool
  | .ttl t => t ≤ 0
  | .deadline _ => false

/-- The deadline hex string: `0x` + base-16 of (now + ttl) for a relative
expiry, else `0x` + base-16 of the absolute deadline. -/
def deadlineHexOf (now : ℤ) : Expiry → String
  | .ttl t => "0x" ++ hexOfInt (now + t)
  | .deadline d => "0x" ++ hexOfInt d

/-- `new Fraction(ONE).add(allowedSlippage).invert()` from the source. -/
def slippageAdjustedOf (s : ℚ) : ℚ :=
  (1 + s)⁻¹

/-- `slippageAdjusted.multiply(amountDesired).add(1).quotient` from the
source: the minimum amount derived from a desired amount. -/
def amountMinOf (s : ℚ) (d : ℤ) : ℤ :=
  fquot (slippageAdjustedOf s * (d : ℚ) + 1)

/-- `swapCallParameters`.  The address validator and the once-sampled wall
clock are explicit arguments.  Results are in `Except`: `.error tag` models
a thrown invariant / validation failure, `.ok` a returned triple. -/
def swapCallParameters (validateAddr : String → Option String) (now : ℤ)
    (trade : Trade) (options : TradeOptions) : Except String SwapParameters :=
  let etherIn := trade.inputIsNative
  let etherOut := trade.outputIsNative
  if etherIn && etherOut then .error "ETHER_IN_OUT"
  else if ttlInvalid options.expiry then .error "TTL"
  else
    match validateAddr options.recipient with
    | none => .error "ADDRESS"
    | some toAddr =>
      let amountIn := toHex (trade.maximumAmountIn options.allowedSlippage)
      let amountOut := toHex (trade.minimumAmountOut options.allowedSlippage)
      let path := trade.path
      let dl := deadlineHexOf now options.expiry
      let useFeeOnTransfer := options.feeOnTransfer
      match trade.tradeType with
      | .exactInput =>
        if etherIn then
          .ok ⟨if useFeeOnTransfer then "swapExactETHForTokensSupportingFeeOnTransferTokens"
               else "swapExactETHForTokens",
               [.str amountOut, .addrList path, .str toAddr, .str dl], amountIn⟩
        else if etherOut then
          .ok ⟨if useFeeOnTransfer then "swapExactTokensForETHSupportingFeeOnTransferTokens"
               else "swapExactTokensForETH",
               [.str amountIn, .str amountOut, .addrList path, .str toAddr, .str dl], ZERO_HEX⟩
        else
          .ok ⟨if useFeeOnTransfer then "swapExactTokensForTokensSupportingFeeOnTransferTokens"
               else "swapExactTokensForTokens",
               [.str amountIn, .str amountOut, .addrList path, .str toAddr, .str dl], ZERO_HEX⟩
      | .exactOutput =>
        if useFeeOnTransfer then .error "EXACT_OUT_FOT"
        else if etherIn then
          .ok ⟨"swapETHForExactTokens",
               [.str amountOut, .addrList path, .str toAddr, .str dl], amountIn⟩
        else if etherOut then
          .ok ⟨"swapTokensForExactETH",
               [.str amountOut, .str amountIn, .addrList path, .str toAddr, .str dl], ZERO_HEX⟩
        else
          .ok ⟨"swapTokensForExactTokens",
               [.str amountOut, .str amountIn, .addrList path, .str toAddr, .str dl], ZERO_HEX⟩

/-- The amount block of `addCallParameters`: initial desired amounts and
minimums followed by the desired/optimal reconciliation, returning
(amountADesired, amountAMin, amountBDesired, amountBMin).  The source's
`console.log` lines are ignored; comparisons of decimal amount strings use
`Number(...)`, i.e. `numLe` / `numLt`. -/
def addAmounts (s : ℚ) (pair : Pair) (amount0 amount1 : CAmount) :
    ℤ × ℤ × ℤ × ℤ :=
  let aDes := fquot amount0.amt
  let bDes := fquot amount1.amt
  let aMin := amountMinOf s aDes
  let bMin := amountMinOf s bDes
  if ¬(pair.reserve0 = 0 ∧ pair.reserve1 = 0) then
    let bOpt := fquot (quote amount0.amt pair.reserve1 pair.reserve0)
    if numLe bOpt bDes then
      if numLt bOpt bMin then (aDes, aMin, bOpt, amountMinOf s bOpt)
      else (aDes, aMin, bDes, bMin)
    else
      let aOpt := fquot (quote amount1.amt pair.reserve0 pair.reserve1)
      if numLe aOpt aDes then
        if numLt aOpt aMin then (aOpt, amountMinOf s aOpt, bDes, bMin)
        else (aDes, aMin, bDes, bMin)
      else (aDes, aMin, bDes, bMin)
  else (aDes, aMin, bDes, bMin)

/-- `addCallParameters`. -/
def addCallParameters (validateAddr : String → Option String) (now : ℤ)
    (pair : Pair) (amount0 amount1 : CAmount) (options : TradeOptions) :
    Except String SwapParameters :=
  let ether0 := amount0.isNative
  let ether1 := amount1.isNative
  if ether0 && ether1 then .error "ETHER_IN_OUT"
  else if ttlInvalid options.expiry then .error "TTL"
  else
    match validateAddr options.recipient with
    | none => .error "ADDRESS"
    | some toAddr =>
      let v := addAmounts options.allowedSlippage pair amount0 amount1
      let aDes := v.1
      let aMin := v.2.1
      let bDes := v.2.2.1
      let bMin := v.2.2.2
      let dl := deadlineHexOf now options.expiry
      if ether0 then
        .ok ⟨"addLiquidityETH",
             [.str pair.token1Address, .str (decStr bDes), .str (decStr bMin),
              .str (decStr aMin), .str toAddr, .str dl], decStr aDes⟩
      else if ether1 then
        .ok ⟨"addLiquidityETH",
             [.str pair.token0Address, .str (decStr aDes), .str (decStr aMin),
              .str (decStr bMin), .str toAddr, .str dl], decStr bDes⟩
      else
        .ok ⟨"addLiquidity",
             [.str pair.token0Address, .str pair.token1Address, .str (decStr aDes),
              .str (decStr bDes), .str (decStr aMin), .str (decStr bMin),
              .str toAddr, .str dl], ZERO_HEX⟩

/-- `removeCallParameters`. -/
def removeCallParameters (validateAddr : String → Option String) (now : ℤ)
    (pair : Pair) (token0 token1 : Currency) (totalSupply balance : ℤ)
    (decreasePercent : ℤ) (options : TradeOptions) :
    Except String SwapParameters :=
  let ether0 := token0.isNative
  let ether1 := token1.isNative
  if ether0 && ether1 then .error "ETHER_IN_OUT"
  else if ttlInvalid options.expiry then .error "TTL"
  else
    match validateAddr options.recipient with
    | none => .error "ADDRESS"
    | some toAddr =>
      let sa := slippageAdjustedOf options.allowedSlippage
      let liquidity : ℚ := (balance : ℚ) * (decreasePercent : ℚ) / 100
      let removePercent : ℚ := liquidity / (totalSupply : ℚ)
      let amountAMin := decStr (fquot (pair.reserve0 * removePercent * sa))
      let amountBMin := decStr (fquot (pair.reserve1 * removePercent * sa))
      let dl := deadlineHexOf now options.expiry
      if ether0 then
        .ok ⟨"removeLiquidityETH",
             [.str pair.token1Address, .str (decStr (fquot liquidity)),
              .str amountBMin, .str amountAMin, .str toAddr, .str dl], ZERO_HEX⟩
      else if ether1 then
        .ok ⟨"removeLiquidityETH",
             [.str pair.token0Address, .str (decStr (fquot liquidity)),
              .str amountAMin, .str amountBMin, .str toAddr, .str dl], ZERO_HEX⟩
      else
        .ok ⟨"removeLiquidity",
             [.str pair.token0Address, .str pair.token1Address,
              .str (decStr (fquot liquidity)), .str amountAMin, .str amountBMin,
              .str toAddr, .str dl], ZERO_HEX⟩

/- ## Helper lemmas -/

/-- On nonnegative rationals, the truncating `quotient` agrees with `⌊·⌋`. -/
theorem fquot_eq_floor (q : ℚ) (h : 0 ≤ q) : fquot q = ⌊q⌋ := by
  rw [fquot, Rat.floor_def]
  exact Int.tdiv_eq_ediv (Rat.num_nonneg.2 h) (Int.natCast_nonneg _)

/-- The truncating `quotient` of a nonnegative rational is nonnegative. -/
theorem fquot_nonneg (q : ℚ) (h : 0 ≤ q) : 0 ≤ fquot q := by
  rw [fquot_eq_floor q h]
  exact Int.floor_nonneg.2 h

/-- The truncating `quotient` of an integer is that integer. -/
theorem fquot_intCast (n : ℤ) : fquot (n : ℚ) = n := by
  rw [fquot, Rat.num_intCast, Rat.den_intCast]
  exact Int.tdiv_one n

/-- For a nonnegative slippage `s`, `slippageAdjustedOf s` is nonnegative. -/
theorem slippageAdjustedOf_nonneg (s : ℚ) (hs : 0 ≤ s) :
    0 ≤ slippageAdjustedOf s := by
  rw [slippageAdjustedOf]
  positivity

/-- The source's minimum-amount expression in closed floor form:
`floor(slippageAdjusted * desired) + 1`. -/
theorem amountMinOf_eq_floor (s : ℚ) (d : ℤ) (hs : 0 ≤ s) (hd : 0 ≤ d) :
    amountMinOf s d = ⌊slippageAdjustedOf s * (d : ℚ)⌋ + 1 := by
  have hsa : 0 ≤ slippageAdjustedOf s := slippageAdjustedOf_nonneg s hs
  have hdq : (0 : ℚ) ≤ (d : ℚ) := by exact_mod_cast hd
  have h1 : (0 : ℚ) ≤ slippageAdjustedOf s * (d : ℚ) + 1 := by positivity
  rw [amountMinOf, fquot_eq_floor _ h1, Int.floor_add_one]

/- ## C1: the quote primitive -/

/-- C1, counterexample.  The claim states `quote(amountA, reserveA, reserveB)
= amountA * reserveB / reserveA`; at `amountA = 1, reserveA = 2, reserveB = 3`
(with `reserveA` non-zero) the source's quote yields `2/3`, not `3/2`, so the
claim is false. -/
theorem quote_claim_cex : ¬ (quote 1 2 3 = 1 * 3 / 2) := by
  with_unfolding_all decide

/-- C1, amended: `quote(amountA, reserveA, reserveB)` equals
`amountA * reserveA / reserveB` — the implementation multiplies by its second
argument and divides by its third (call sites pass the reserves swapped, so
`quote(amount0, reserve1, reserve0)` is the implied counter-amount
`amount0 * reserve1 / reserve0`) — and when the result is nonnegative its
truncating integer-quotient extraction is the floor of that ratio. -/
theorem quote_spec (a rA rB : ℚ) (h : 0 ≤ a * rA / rB) :
    quote a rA rB = a * rA / rB ∧ fquot (quote a rA rB) = ⌊a * rA / rB⌋ :=
  ⟨rfl, fquot_eq_floor _ h⟩

/-- C1, witness for `quote_spec` at `(1, 2, 3)`. -/
theorem quote_spec_witness :
    (0 : ℚ) ≤ 1 * 2 / 3 ∧
      (quote 1 2 3 = 1 * 2 / 3 ∧ fquot (quote 1 2 3) = ⌊(1 * 2 / 3 : ℚ)⌋) :=
  ⟨by norm_num, quote_spec 1 2 3 (by norm_num)⟩

/- ## C2: serialization of amounts placed into args / value -/

/-- C2, evaluation at a failing input.  `addCallParameters` on a token-token
pair with uninitialized reserves, zero slippage, desired amounts 255 and 2:
every amount lands in `args` as a plain decimal string ("255", "2", "256",
"3"), not as the 0x hexadecimal serialization the claim requires (the hex
serialization of 255 is "0xff", as `toHex` shows), contradicting the
source's own documentation of `SwapParameters.args` ("all hex encoded"). -/
theorem addCallParameters_decimal_args :
    addCallParameters (fun s => some s) 0 ⟨"T0", "T1", 0, 0⟩ ⟨false, 255⟩
        ⟨false, 2⟩ ⟨0, .deadline 1, "R", false⟩ =
      .ok ⟨"addLiquidity",
        [.str "T0", .str "T1", .str "255", .str "2", .str "256", .str "3",
         .str "R", .str "0x1"], ZERO_HEX⟩ ∧
      toHex ((255 : ℤ) : ℚ) = "0xff" ∧ ¬ ("255" = "0xff") := by
  refine ⟨?_, ?_, ?_⟩ <;> with_unfolding_all decide

/- ## C3: exactness of the reconciliation comparisons -/

/-- C3, evaluation at a failing input.  The reconciliation comparisons of
`addCallParameters` convert decimal amount strings with JavaScript
`Number(...)` (binary64) before comparing.  At `amountBOptimal = 2^53 + 1`
and `amountBDesired = 2^53` the float comparison reports `optimal ≤ desired`
while the exact integer comparison says otherwise; consequently, on a pair
with reserves (1, 1), amounts `2^53 + 1` and `2^53`, and zero slippage, the
source takes the B-side branch and emits every original amount unchanged,
whereas exact comparisons would take the A-side branch (amountAOptimal =
2^53 ≤ amountADesired = 2^53 + 1 with amountAOptimal < amountAMin) and
reduce amountADesired to 2^53. -/
theorem addCallParameters_float_collapse :
    numLe (2 ^ 53 + 1) (2 ^ 53) = true ∧ ¬ ((2 ^ 53 + 1 : ℤ) ≤ 2 ^ 53) ∧
      addCallParameters (fun s => some s) 0 ⟨"T0", "T1", 1, 1⟩
          ⟨false, ((9007199254740993 : ℤ) : ℚ)⟩
          ⟨false, ((9007199254740992 : ℤ) : ℚ)⟩
          ⟨0, .deadline 1, "R", false⟩ =
        .ok ⟨"addLiquidity",
          [.str "T0", .str "T1", .str "9007199254740993",
           .str "9007199254740992", .str "9007199254740994",
           .str "9007199254740993", .str "R", .str "0x1"], ZERO_HEX⟩ := by
  refine ⟨?_, ?_, ?_⟩ <;> with_unfolding_all decide

/- ## C7: the +1-biased minimum versus the desired amount -/

/-- C7, counterexample.  The claim states that for every allowedSlippage in
[0,1) and positive desired amount the minimum is strictly below the desired
amount.  At slippage 0 and desired 1000 the minimum is 1001, strictly above;
and at slippage 1/2 and desired 1 the minimum equals the desired amount. -/
theorem amountMinOf_claim_cex :
    amountMinOf 0 1000 = 1001 ∧ ¬ (amountMinOf 0 1000 < 1000) ∧
      amountMinOf (1 / 2) 1 = 1 ∧ ¬ (amountMinOf (1 / 2) 1 < 1) := by
  refine ⟨?_, ?_, ?_, ?_⟩ <;> with_unfolding_all decide

/-- C7, amended: for allowedSlippage strictly between 0 and 1 and a positive
desired amount, `amountXMin = floor(slippageAdjusted * amountXDesired) + 1`
never exceeds the desired amount (at zero slippage it is desired + 1). -/
theorem amountMinOf_le_desired (s : ℚ) (d : ℤ) (hs0 : 0 < s) (hs1 : s < 1)
    (hd : 0 < d) :
    amountMinOf s d = ⌊slippageAdjustedOf s * (d : ℚ)⌋ + 1 ∧
      amountMinOf s d ≤ d := by
  have heq := amountMinOf_eq_floor s d hs0.le hd.le
  refine ⟨heq, ?_⟩
  rw [heq]
  have hdq : (0 : ℚ) < (d : ℚ) := by exact_mod_cast hd
  have hlt : slippageAdjustedOf s * (d : ℚ) < (d : ℚ) := by
    have hinv : slippageAdjustedOf s < 1 := by
      rw [slippageAdjustedOf]
      exact inv_lt_one_of_one_lt₀ (by linarith)
    calc slippageAdjustedOf s * (d : ℚ) < 1 * (d : ℚ) :=
          mul_lt_mul_of_pos_right hinv hdq
      _ = (d : ℚ) := one_mul _
  have := Int.floor_lt.2 hlt
  omega

/-- C7, witness for `amountMinOf_le_desired` at slippage 1/2 and desired 3. -/
theorem amountMinOf_le_desired_witness :
    (0 : ℚ) < 1 / 2 ∧ (1 / 2 : ℚ) < 1 ∧ (0 : ℤ) < 3 ∧
      (amountMinOf (1 / 2) 3 = ⌊slippageAdjustedOf (1 / 2) * ((3 : ℤ) : ℚ)⌋ + 1 ∧
        amountMinOf (1 / 2) 3 ≤ 3) :=
  ⟨by norm_num, by norm_num, by norm_num,
    amountMinOf_le_desired (1 / 2) 3 (by norm_num) (by norm_num) (by norm_num)⟩

/- ## C5: swap failure conditions -/

/-- The `TTL` invariant fires exactly when a relative ttl is supplied and is
not positive. -/
theorem ttlInvalid_eq_true_iff (e : Expiry) :
    ttlInvalid e = true ↔ ∃ t, e = .ttl t ∧ t ≤ 0 := by
  cases e <;> simp [ttlInvalid]

/-- C5: `swapCallParameters` fails (synchronously, with no partial result)
exactly when: both legs are native; or a relative ttl ≤ 0 is supplied; or
fee-on-transfer is requested with an exact-output trade; or the recipient
fails address validation.  On every other input it returns a triple. -/
theorem swapCallParameters_error_iff (v : String → Option String) (now : ℤ)
    (t : Trade) (o : TradeOptions) :
    (∃ e, swapCallParameters v now t o = .error e) ↔
      (t.inputIsNative = true ∧ t.outputIsNative = true) ∨
        (∃ s, o.expiry = .ttl s ∧ s ≤ 0) ∨
        (o.feeOnTransfer = true ∧ t.tradeType = .exactOutput) ∨
        v o.recipient = none := by
  obtain ⟨ein, eout, tt, maxIn, minOut, path⟩ := t
  obtain ⟨s, ex, rec, fot⟩ := o
  simp only [show (∃ s, ex = .ttl s ∧ s ≤ 0) ↔ ttlInvalid ex = true from
    (ttlInvalid_eq_true_iff ex).symm]
  cases ein <;> cases eout <;> cases tt <;> cases fot <;>
    cases httl : ttlInvalid ex <;> cases hv : v rec <;>
      simp_all [swapCallParameters]

/- ## C4: the swap method-selection decision table -/

/-- C4: every successful `swapCallParameters` call selects `methodName`,
`args` order and `value` exactly by the decision table keyed by
`(tradeType, etherIn, etherOut, feeOnTransferRequested)`, and `value` is
`amountIn`'s hex exactly when the input currency is native, else the zero
sentinel. -/
theorem swapCallParameters_table (v : String → Option String) (now : ℤ)
    (t : Trade) (o : TradeOptions) (toAddr : String) (p : SwapParameters)
    (hv : v o.recipient = some toAddr)
    (h : swapCallParameters v now t o = .ok p) :
    (p =
      (let amountIn := toHex (t.maximumAmountIn o.allowedSlippage)
       let amountOut := toHex (t.minimumAmountOut o.allowedSlippage)
       let dl := deadlineHexOf now o.expiry
       match t.tradeType, t.inputIsNative, t.outputIsNative, o.feeOnTransfer with
       | .exactInput, true, _, false =>
         ⟨"swapExactETHForTokens",
          [.str amountOut, .addrList t.path, .str toAddr, .str dl], amountIn⟩
       | .exactInput, true, _, true =>
         ⟨"swapExactETHForTokensSupportingFeeOnTransferTokens",
          [.str amountOut, .addrList t.path, .str toAddr, .str dl], amountIn⟩
       | .exactInput, false, true, false =>
         ⟨"swapExactTokensForETH",
          [.str amountIn, .str amountOut, .addrList t.path, .str toAddr, .str dl],
          ZERO_HEX⟩
       | .exactInput, false, true, true =>
         ⟨"swapExactTokensForETHSupportingFeeOnTransferTokens",
          [.str amountIn, .str amountOut, .addrList t.path, .str toAddr, .str dl],
          ZERO_HEX⟩
       | .exactInput, false, false, false =>
         ⟨"swapExactTokensForTokens",
          [.str amountIn, .str amountOut, .addrList t.path, .str toAddr, .str dl],
          ZERO_HEX⟩
       | .exactInput, false, false, true =>
         ⟨"swapExactTokensForTokensSupportingFeeOnTransferTokens",
          [.str amountIn, .str amountOut, .addrList t.path, .str toAddr, .str dl],
          ZERO_HEX⟩
       | .exactOutput, true, _, _ =>
         ⟨"swapETHForExactTokens",
          [.str amountOut, .addrList t.path, .str toAddr, .str dl], amountIn⟩
       | .exactOutput, false, true, _ =>
         ⟨"swapTokensForExactETH",
          [.str amountOut, .str amountIn, .addrList t.path, .str toAddr, .str dl],
          ZERO_HEX⟩
       | .exactOutput, false, false, _ =>
         ⟨"swapTokensForExactTokens",
          [.str amountOut, .str amountIn, .addrList t.path, .str toAddr, .str dl],
          ZERO_HEX⟩)) ∧
      p.value =
        (if t.inputIsNative then toHex (t.maximumAmountIn o.allowedSlippage)
         else ZERO_HEX) := by
  obtain ⟨ein, eout, tt, maxIn, minOut, path⟩ := t
  obtain ⟨s, ex, rec, fot⟩ := o
  cases ein <;> cases eout <;> cases tt <;> cases fot <;>
    cases httl : ttlInvalid ex <;>
      simp_all [swapCallParameters] <;> simp [← h]

/-- C4, witness: a concrete exact-input ether-in swap hits the
`swapExactETHForTokens` row of the table, with `value = amountIn`'s hex. -/
theorem swapCallParameters_table_witness :
    swapCallParameters (fun s => some s) 0
        ⟨true, false, .exactInput, fun _ => 100, fun _ => 90, ["A", "B"]⟩
        ⟨0, .deadline 1, "R", false⟩ =
      .ok ⟨"swapExactETHForTokens",
        [.str "0x5a", .addrList ["A", "B"], .str "R", .str "0x1"], "0x64"⟩ ∧
      "0x64" = toHex 100 := by
  refine ⟨by with_unfolding_all decide, ?_⟩
  have h := swapCallParameters_table (fun s => some s) 0
    ⟨true, false, .exactInput, fun _ => 100, fun _ => 90, ["A", "B"]⟩
    ⟨0, .deadline 1, "R", false⟩ "R"
    ⟨"swapExactETHForTokens",
      [.str "0x5a", .addrList ["A", "B"], .str "R", .str "0x1"], "0x64"⟩
    rfl (by with_unfolding_all decide)
  with_unfolding_all exact h.2

/- ## C6: add-liquidity on an uninitialized pool -/

/-- On an uninitialized pool the reconciliation is skipped: the amount block
returns the truncated desired amounts and the slippage-derived minimums. -/
theorem addAmounts_uninitialized (s : ℚ) (pair : Pair) (a0 a1 : CAmount)
    (hr0 : pair.reserve0 = 0) (hr1 : pair.reserve1 = 0) :
    addAmounts s pair a0 a1 =
      (fquot a0.amt, amountMinOf s (fquot a0.amt),
       fquot a1.amt, amountMinOf s (fquot a1.amt)) := by
  simp [addAmounts, hr0, hr1]

/-- C6: on an uninitialized pool (both reserves zero) the desired amounts
pass through unchanged and each minimum is
`floor(slippageAdjusted * desired) + 1`, derived solely from
`slippageAdjusted = 1 / (1 + allowedSlippage)`. -/
theorem addCallParameters_uninitialized (v : String → Option String) (now : ℤ)
    (pair : Pair) (a0 a1 : CAmount) (o : TradeOptions) (toAddr : String)
    (hr0 : pair.reserve0 = 0) (hr1 : pair.reserve1 = 0)
    (hnat : (a0.isNative && a1.isNative) = false)
    (httl : ttlInvalid o.expiry = false)
    (hv : v o.recipient = some toAddr)
    (hs : 0 ≤ o.allowedSlippage) (h0 : 0 ≤ a0.amt) (h1 : 0 ≤ a1.amt) :
    addCallParameters v now pair a0 a1 o =
      .ok
        (let aDes := fquot a0.amt
         let bDes := fquot a1.amt
         let aMin := ⌊slippageAdjustedOf o.allowedSlippage * (aDes : ℚ)⌋ + 1
         let bMin := ⌊slippageAdjustedOf o.allowedSlippage * (bDes : ℚ)⌋ + 1
         let dl := deadlineHexOf now o.expiry
         if a0.isNative then
           ⟨"addLiquidityETH",
            [.str pair.token1Address, .str (decStr bDes), .str (decStr bMin),
             .str (decStr aMin), .str toAddr, .str dl], decStr aDes⟩
         else if a1.isNative then
           ⟨"addLiquidityETH",
            [.str pair.token0Address, .str (decStr aDes), .str (decStr aMin),
             .str (decStr bMin), .str toAddr, .str dl], decStr bDes⟩
         else
           ⟨"addLiquidity",
            [.str pair.token0Address, .str pair.token1Address, .str (decStr aDes),
             .str (decStr bDes), .str (decStr aMin), .str (decStr bMin),
             .str toAddr, .str dl], ZERO_HEX⟩) := by
  have hminA := amountMinOf_eq_floor o.allowedSlippage (fquot a0.amt) hs
    (fquot_nonneg _ h0)
  have hminB := amountMinOf_eq_floor o.allowedSlippage (fquot a1.amt) hs
    (fquot_nonneg _ h1)
  cases hn0 : a0.isNative <;> cases hn1 : a1.isNative <;>
    simp_all [addCallParameters, addAmounts_uninitialized _ _ _ _ hr0 hr1]

/-- C6, witness: zero slippage, desired amounts 1000 and 2000, uninitialized
pool — the emitted minimums are 1001 and 2001 (the +1 bias applies even at
zero slippage). -/
theorem addCallParameters_uninitialized_witness :
    addCallParameters (fun s => some s) 0 ⟨"T0", "T1", 0, 0⟩ ⟨false, 1000⟩
        ⟨false, 2000⟩ ⟨0, .deadline 1, "R", false⟩ =
      .ok ⟨"addLiquidity",
        [.str "T0", .str "T1", .str "1000", .str "2000", .str "1001",
         .str "2001", .str "R", .str "0x1"], ZERO_HEX⟩ := by
  have h := addCallParameters_uninitialized (fun s => some s) 0
    ⟨"T0", "T1", 0, 0⟩ ⟨false, 1000⟩ ⟨false, 2000⟩ ⟨0, .deadline 1, "R", false⟩
    "R" rfl rfl rfl rfl rfl (by norm_num) (by norm_num) (by norm_num)
  rw [h]
  with_unfolding_all decide

/- ## C9: the unresolved reconciliation fallthrough -/

/-- When the pool is initialized and both optimal amounts exceed their
desired counterparts under the source's comparisons, the amount block
returns the original desired amounts and minimums unchanged. -/
theorem addAmounts_fallthrough (s : ℚ) (pair : Pair) (a0 a1 : CAmount)
    (hres : ¬ (pair.reserve0 = 0 ∧ pair.reserve1 = 0))
    (hB : numLe (fquot (quote a0.amt pair.reserve1 pair.reserve0))
      (fquot a1.amt) = false)
    (hA : numLe (fquot (quote a1.amt pair.reserve0 pair.reserve1))
      (fquot a0.amt) = false) :
    addAmounts s pair a0 a1 =
      (fquot a0.amt, amountMinOf s (fquot a0.amt),
       fquot a1.amt, amountMinOf s (fquot a1.amt)) := by
  simp [addAmounts, hres, hB, hA]

/-- C9: on an initialized pool, when neither the B-side nor the A-side
optimal amount is consistent with its desired counterpart (amountBOptimal >
amountBDesired and amountAOptimal > amountADesired, under the comparisons
the source performs), no error is raised: the call returns successfully and
the originally computed desired amounts and minimums are emitted
unchanged. -/
theorem addCallParameters_fallthrough (v : String → Option String) (now : ℤ)
    (pair : Pair) (a0 a1 : CAmount) (o : TradeOptions) (toAddr : String)
    (hres : ¬ (pair.reserve0 = 0 ∧ pair.reserve1 = 0))
    (hB : numLe (fquot (quote a0.amt pair.reserve1 pair.reserve0))
      (fquot a1.amt) = false)
    (hA : numLe (fquot (quote a1.amt pair.reserve0 pair.reserve1))
      (fquot a0.amt) = false)
    (hnat : (a0.isNative && a1.isNative) = false)
    (httl : ttlInvalid o.expiry = false)
    (hv : v o.recipient = some toAddr) :
    addCallParameters v now pair a0 a1 o =
      .ok
        (let aDes := fquot a0.amt
         let bDes := fquot a1.amt
         let aMin := amountMinOf o.allowedSlippage aDes
         let bMin := amountMinOf o.allowedSlippage bDes
         let dl := deadlineHexOf now o.expiry
         if a0.isNative then
           ⟨"addLiquidityETH",
            [.str pair.token1Address, .str (decStr bDes), .str (decStr bMin),
             .str (decStr aMin), .str toAddr, .str dl], decStr aDes⟩
         else if a1.isNative then
           ⟨"addLiquidityETH",
            [.str pair.token0Address, .str (decStr aDes), .str (decStr aMin),
             .str (decStr bMin), .str toAddr, .str dl], decStr bDes⟩
         else
           ⟨"addLiquidity",
            [.str pair.token0Address, .str pair.token1Address, .str (decStr aDes),
             .str (decStr bDes), .str (decStr aMin), .str (decStr bMin),
             .str toAddr, .str dl], ZERO_HEX⟩) := by
  cases hn0 : a0.isNative <;> cases hn1 : a1.isNative <;>
    simp_all [addCallParameters, addAmounts_fallthrough _ _ _ _ hres hB hA]

/-- C9, witness.  With a live (positive-reserve) snapshot the two fallthrough
guards cannot hold together, so the witness uses a degenerate snapshot with a
negative reserve, on which the branch is reachable: the call succeeds and
emits the original amounts. -/
theorem addCallParameters_fallthrough_witness :
    addCallParameters (fun s => some s) 0 ⟨"T0", "T1", 1, -1⟩ ⟨false, -5⟩
        ⟨false, 1⟩ ⟨0, .deadline 1, "R", false⟩ =
      .ok ⟨"addLiquidity",
        [.str "T0", .str "T1", .str "-5", .str "1", .str "-4", .str "2",
         .str "R", .str "0x1"], ZERO_HEX⟩ := by
  have h := addCallParameters_fallthrough (fun s => some s) 0
    ⟨"T0", "T1", 1, -1⟩ ⟨false, -5⟩ ⟨false, 1⟩ ⟨0, .deadline 1, "R", false⟩ "R"
    (by with_unfolding_all decide) (by with_unfolding_all decide)
    (by with_unfolding_all decide) rfl rfl rfl
  rw [h]
  with_unfolding_all decide

/- ## C8: remove-liquidity amounts -/

/-- C8: `liquidity = balance * decreasePercent / 100` and
`removePercent = liquidity / totalSupply` as exact rationals, each
`amountXMin = floor(reserveX * removePercent * slippageAdjusted)` with no
+1 bias; and when `decreasePercent = 100` and `balance = totalSupply`,
`removePercent` is exactly 1, the emitted liquidity equals the balance, and
each minimum is exactly the floor of `reserveX * slippageAdjusted`. -/
theorem removeCallParameters_spec (v : String → Option String) (now : ℤ)
    (pair : Pair) (t0 t1 : Currency) (ts bal dp : ℤ) (o : TradeOptions)
    (toAddr : String)
    (hnat : (t0.isNative && t1.isNative) = false)
    (httl : ttlInvalid o.expiry = false)
    (hv : v o.recipient = some toAddr)
    (hs : 0 ≤ o.allowedSlippage) (hr0 : 0 ≤ pair.reserve0)
    (hr1 : 0 ≤ pair.reserve1) (hb : 0 ≤ bal) (hdp : 0 ≤ dp) (hts : 0 < ts) :
    (removeCallParameters v now pair t0 t1 ts bal dp o =
      .ok
        (let L : ℚ := (bal : ℚ) * (dp : ℚ) / 100
         let rp : ℚ := L / (ts : ℚ)
         let sa : ℚ := slippageAdjustedOf o.allowedSlippage
         let aMin := decStr ⌊pair.reserve0 * rp * sa⌋
         let bMin := decStr ⌊pair.reserve1 * rp * sa⌋
         let dl := deadlineHexOf now o.expiry
         if t0.isNative then
           ⟨"removeLiquidityETH",
            [.str pair.token1Address, .str (decStr ⌊L⌋), .str bMin, .str aMin,
             .str toAddr, .str dl], ZERO_HEX⟩
         else if t1.isNative then
           ⟨"removeLiquidityETH",
            [.str pair.token0Address, .str (decStr ⌊L⌋), .str aMin, .str bMin,
             .str toAddr, .str dl], ZERO_HEX⟩
         else
           ⟨"removeLiquidity",
            [.str pair.token0Address, .str pair.token1Address,
             .str (decStr ⌊L⌋), .str aMin, .str bMin, .str toAddr, .str dl],
            ZERO_HEX⟩)) ∧
      (dp = 100 → bal = ts →
        (bal : ℚ) * (dp : ℚ) / 100 / (ts : ℚ) = 1 ∧
          ⌊(bal : ℚ) * (dp : ℚ) / 100⌋ = bal ∧
          ⌊pair.reserve0 * ((bal : ℚ) * (dp : ℚ) / 100 / (ts : ℚ)) *
              slippageAdjustedOf o.allowedSlippage⌋ =
            ⌊pair.reserve0 * slippageAdjustedOf o.allowedSlippage⌋ ∧
          ⌊pair.reserve1 * ((bal : ℚ) * (dp : ℚ) / 100 / (ts : ℚ)) *
              slippageAdjustedOf o.allowedSlippage⌋ =
            ⌊pair.reserve1 * slippageAdjustedOf o.allowedSlippage⌋) := by
  have htsq : (0 : ℚ) < (ts : ℚ) := by exact_mod_cast hts
  have hbq : (0 : ℚ) ≤ (bal : ℚ) := by exact_mod_cast hb
  have hdpq : (0 : ℚ) ≤ (dp : ℚ) := by exact_mod_cast hdp
  have hL : (0 : ℚ) ≤ (bal : ℚ) * (dp : ℚ) / 100 := by positivity
  have hrp : (0 : ℚ) ≤ (bal : ℚ) * (dp : ℚ) / 100 / (ts : ℚ) := by positivity
  have hsa : 0 ≤ slippageAdjustedOf o.allowedSlippage :=
    slippageAdjustedOf_nonneg _ hs
  constructor
  · have hA : (0 : ℚ) ≤ pair.reserve0 * ((bal : ℚ) * (dp : ℚ) / 100 / (ts : ℚ)) *
        slippageAdjustedOf o.allowedSlippage := by positivity
    have hBq : (0 : ℚ) ≤ pair.reserve1 * ((bal : ℚ) * (dp : ℚ) / 100 / (ts : ℚ)) *
        slippageAdjustedOf o.allowedSlippage := by positivity
    cases hn0 : t0.isNative <;> cases hn1 : t1.isNative <;>
      simp_all [removeCallParameters, fquot_eq_floor _ hA, fquot_eq_floor _ hBq,
        fquot_eq_floor _ hL]
  · rintro rfl rfl
    have h100 : (bal : ℚ) * (100 : ℤ) / 100 = (bal : ℚ) := by
      push_cast
      ring
    have hrp1 : (bal : ℚ) * ((100 : ℤ) : ℚ) / 100 / (bal : ℚ) = 1 := by
      rw [h100]
      exact div_self htsq.ne'
    refine ⟨hrp1, ?_, ?_, ?_⟩
    · rw [h100, Int.floor_intCast]
    · rw [hrp1, mul_one]
    · rw [hrp1, mul_one]

/-- C8, witness: reserves 7 and 9, totalSupply = balance = 10,
decreasePercent = 100, zero slippage — the emitted liquidity is 10 and the
minimums are exactly 7 and 9. -/
theorem removeCallParameters_spec_witness :
    removeCallParameters (fun s => some s) 0 ⟨"T0", "T1", 7, 9⟩ ⟨false⟩ ⟨false⟩
        10 10 100 ⟨0, .deadline 1, "R", false⟩ =
      .ok ⟨"removeLiquidity",
        [.str "T0", .str "T1", .str "10", .str "7", .str "9", .str "R",
         .str "0x1"], ZERO_HEX⟩ := by
  have h := removeCallParameters_spec (fun s => some s) 0 ⟨"T0", "T1", 7, 9⟩
    ⟨false⟩ ⟨false⟩ 10 10 100 ⟨0, .deadline 1, "R", false⟩ "R"
    rfl rfl rfl (by norm_num) (by norm_num) (by norm_num) (by norm_num)
    (by norm_num) (by norm_num)
  rw [h.1]
  with_unfolding_all decide

/- ## C10: remove-liquidity call value -/

/-- C10: every successful `removeCallParameters` call returns the zero-hex
sentinel as its `value`, including when a native-currency side selects the
`removeLiquidityETH` method. -/
theorem removeCallParameters_value_zero (v : String → Option String) (now : ℤ)
    (pair : Pair) (t0 t1 : Currency) (ts bal dp : ℤ) (o : TradeOptions)
    (p : SwapParameters)
    (h : removeCallParameters v now pair t0 t1 ts bal dp o = .ok p) :
    p.value = ZERO_HEX := by
  obtain ⟨n0⟩ := t0
  obtain ⟨n1⟩ := t1
  cases n0 <;> cases n1 <;>
    cases httl : ttlInvalid o.expiry <;> cases hv : v o.recipient <;>
      simp_all [removeCallParameters] <;> simp [← h]

/-- C10, witness: a removal whose token0 is the native currency (selecting
`removeLiquidityETH`) still carries the zero-hex value. -/
theorem removeCallParameters_value_zero_witness :
    removeCallParameters (fun s => some s) 0 ⟨"T0", "T1", 7, 9⟩ ⟨true⟩ ⟨false⟩
        10 10 100 ⟨0, .deadline 1, "R", false⟩ =
      .ok ⟨"removeLiquidityETH",
        [.str "T1", .str "10", .str "9", .str "7", .str "R", .str "0x1"],
        ZERO_HEX⟩ ∧
      SwapParameters.value ⟨"removeLiquidityETH",
        [.str "T1", .str "10", .str "9", .str "7", .str "R", .str "0x1"],
        ZERO_HEX⟩ = ZERO_HEX := by
  refine ⟨by with_unfolding_all decide, ?_⟩
  exact removeCallParameters_value_zero (fun s => some s) 0 ⟨"T0", "T1", 7, 9⟩
    ⟨true⟩ ⟨false⟩ 10 10 100 ⟨0, .deadline 1, "R", false⟩ _
    (by with_unfolding_all decide)

end V2Router
